import Mathlib

/-! food-order-api: the supervisor configuration `ecosystem.config.js`.

The repository's JavaScript source is one module whose export is an object
literal with a single property `apps`, an array holding one application record.
Every property value is a literal except `cwd`, which is the result of the call
`process.cwd()`.

The embedding keeps the object literal as it is written: a record is the list of
its properties in source order, each a key and a value.  The process that loads
the module is an explicit state, of which the module reads the working directory
only.
-/

namespace EcosystemConfig

/-- Values that occur as property values in the application record: strings,
integer number literals, booleans, an array of numbers (`stop_exit_codes`) and
an object whose values are strings (`env`). -/
inductive JsVal where
  | str (s : String)
  | num (n : Int)
  | bool (b : Bool)
  | numArr (xs : List Int)
  | strObj (props : List (String × String))
  deriving DecidableEq, Repr

/-- An object literal: its properties in source order. -/
abbrev AppRecord := List (String × JsVal)

/-- State of the Node.js process that evaluates the module.  `cwd` is what
`process.cwd()` returns; the other fields are state the module could have read
and does not. -/
structure Process where
  cwd : String
  env : List (String × String)
  argv : List String
  pid : Nat
  deriving DecidableEq, Repr

/-- A process started in the deployment directory. -/
def deployed : Process :=
  { cwd := "/srv/app", env := [], argv := [], pid := 1 }

/-- A process that differs from `deployed` in the working directory only. -/
def checkout : Process :=
  { cwd := "/home/dev/food-order-api", env := [], argv := [], pid := 1 }

/-- A process that differs from `deployed` in every part of its state. -/
def scratch : Process :=
  { cwd := "/tmp", env := [("TERM", "xterm")], argv := ["node", "pm2"], pid := 7 }

/-- The value assigned to `module.exports`. -/
structure ModuleExports where
  apps : List AppRecord
  deriving DecidableEq, Repr

/-- The `env` object literal of the application record (source lines 21-28). -/
def env : List (String × String) :=
  [ ("NODE_ENV", "production"),
    ("PYTHONUNBUFFERED", "1"),
    ("PYTHONIOENCODING", "utf-8"),
    ("NO_COLOR", "1"),
    ("TERM", "dumb"),
    ("FORCE_COLOR", "0") ]

/-- Evaluation of `ecosystem.config.js` in process `process`: the object assigned
to `module.exports`, property by property in source order. -/
def moduleExports (process : Process) : ModuleExports :=
  { apps := [
      [ ("name", .str "food-order-api"),
        ("script", .str "uv"),
        ("args", .str "run main.py"),
        ("cwd", .str process.cwd),
        ("autorestart", .bool true),
        ("max_restarts", .num 3),
        ("watch", .bool false),
        ("max_memory_restart", .str "1G"),
        ("restart_delay", .num 3000),
        ("stop_exit_codes", .numArr [0]),
        ("time", .bool true),
        ("merge_logs", .bool true),
        ("log_date_format", .str "YYYY-MM-DD HH:mm:ss Z"),
        ("out_file", .str "./logs/supervisor_out.log"),
        ("error_file", .str "./logs/supervisor_err.log"),
        ("log_file", .str "./logs/combined.log"),
        ("max_size", .str "50M"),
        ("retain", .num 10),
        ("env", .strObj env) ] ] }

/-- Property keys of a record, in source order. -/
def keys (r : AppRecord) : List String := r.map Prod.fst

/-- Property read `r[k]`: the value of the first property with key `k`. -/
def getProp (r : AppRecord) (k : String) : Option JsVal := r.lookup k

/-- Property read `module.exports.apps[i][k]`. -/
def appProp (e : ModuleExports) (i : Nat) (k : String) : Option JsVal :=
  match e.apps.get? i with
  | some r => getProp r k
  | none => none

/-- Property keys of `module.exports.apps[i]`. -/
def appKeys (e : ModuleExports) (i : Nat) : List String :=
  match e.apps.get? i with
  | some r => keys r
  | none => []

/-- The recognized options of spec §6, in the order the spec lists them. -/
def recognizedOptions : List String :=
  [ "name", "script", "args", "cwd", "autorestart", "max_restarts",
    "restart_delay", "max_memory_restart", "stop_exit_codes", "env", "watch",
    "out_file", "error_file", "log_file", "max_size", "retain", "time",
    "log_date_format" ]

/-- Read of a string-valued property. -/
def getStr (r : AppRecord) (k : String) : Option String :=
  match getProp r k with
  | some (.str s) => some s
  | _ => none

/-- Read of a boolean property. -/
def getBool (r : AppRecord) (k : String) : Option Bool :=
  match getProp r k with
  | some (.bool b) => some b
  | _ => none

/-- Read of a numeric property as an integer. -/
def getNum (r : AppRecord) (k : String) : Option Int :=
  match getProp r k with
  | some (.num n) => some n
  | _ => none

/-- Read of a numeric property that has to be a non-negative integer. -/
def getCount (r : AppRecord) (k : String) : Option Nat :=
  match getProp r k with
  | some (.num n) => if 0 ≤ n then some n.toNat else none
  | _ => none

/-- Read of an array-of-numbers property. -/
def getCodes (r : AppRecord) (k : String) : Option (List Int) :=
  match getProp r k with
  | some (.numArr xs) => some xs
  | _ => none

/-- Read of an object-of-strings property. -/
def getEnv (r : AppRecord) (k : String) : Option (List (String × String)) :=
  match getProp r k with
  | some (.strObj m) => some m
  | _ => none

end EcosystemConfig

/-! The supervisor that reads the configuration.

The program that interprets the record (launcher, restart policy, log writer,
supervisor core) is not part of the repository.  The definitions below follow
the words of the specification, component by component, and take every
configured value from the record above. -/

namespace SizeOption

/-- Modelled from the spec: the unit suffix of a byte size ("byte size with unit
suffix, e.g. 1G", spec §6).  The interpreter of the suffix is missing from the
sources; the letters are taken as binary multiples. -/
def unitBytes (u : Char) : Option Nat :=
  if u = 'K' then some 1024
  else if u = 'M' then some (1024 * 1024)
  else if u = 'G' then some (1024 * 1024 * 1024)
  else none

/-- Value of a string of decimal digits. -/
def digitsValue (ds : List Char) : Nat :=
  ds.foldl (fun n d => 10 * n + (d.toNat - '0'.toNat)) 0

/-- Modelled from the spec: reading of a size option as a decimal integer
followed by one unit letter (spec §6); the reader is missing from the sources.
Gives the integer and the letter, or nothing when the string has another
shape. -/
def splitSize (s : String) : Option (Nat × Char) :=
  match s.toList.reverse with
  | [] => none
  | u :: rest =>
    let ds := rest.reverse
    if ds ≠ [] ∧ ds.all Char.isDigit = true ∧ u.isAlpha = true then
      some (digitsValue ds, u)
    else none

/-- Modelled from the spec: the number of bytes a size option denotes
(spec §6); the reader is missing from the sources. -/
def sizeBytes (s : String) : Option Nat :=
  match splitSize s with
  | some (n, u) =>
    match unitBytes u with
    | some b => some (n * b)
    | none => none
  | none => none

end SizeOption

/-- Modelled from the spec: the AppSpec record of spec §3 (name, executable,
arguments, working directory, environment mapping, autorestart flag,
max_restarts, restart_delay, memory ceiling, stop exit codes); its declaration
is missing from the sources. -/
structure AppSpec where
  name : String
  script : String
  args : String
  cwd : String
  env : List (String × String)
  autorestart : Bool
  max_restarts : Nat
  restart_delay : Nat
  max_memory_restart : Nat
  stop_exit_codes : List Int
  deriving DecidableEq, Repr

/-- Modelled from the spec: the rotation threshold in bytes and the retention
limit of a log sink (spec §3, §4.2); the declaration is missing from the
sources. -/
structure LogLimits where
  max_size : Nat
  retain : Nat
  deriving DecidableEq, Repr

namespace AppSpec

open EcosystemConfig

/-- Modelled from the spec: creation of the AppSpec from an application record,
"validated once at load" (spec §3, §9); the loader is missing from the sources.
Each field is read from the option of the same name with the type spec §6 gives
it, the counts have to be non-negative, the memory ceiling has to be a byte
size, and the keys of the environment have to be unique. -/
def load (r : AppRecord) : Option AppSpec :=
  match getStr r "name", getStr r "script", getStr r "args", getStr r "cwd",
        getEnv r "env", getBool r "autorestart", getCount r "max_restarts",
        getCount r "restart_delay", (getStr r "max_memory_restart").bind SizeOption.sizeBytes,
        getCodes r "stop_exit_codes" with
  | some name, some script, some args, some cwd, some env, some autorestart,
    some max_restarts, some restart_delay, some ceiling, some codes =>
    if (env.map Prod.fst).Nodup then
      some { name := name, script := script, args := args, cwd := cwd, env := env,
             autorestart := autorestart, max_restarts := max_restarts,
             restart_delay := restart_delay, max_memory_restart := ceiling,
             stop_exit_codes := codes }
    else none
  | _, _, _, _, _, _, _, _, _, _ => none

end AppSpec

namespace LogLimits

open EcosystemConfig

/-- Modelled from the spec: the limits of the log writer read from an
application record, `max_size` as a byte size and `retain` as a non-negative
count (spec §6); the loader is missing from the sources. -/
def load (r : AppRecord) : Option LogLimits :=
  match (getStr r "max_size").bind SizeOption.sizeBytes, getCount r "retain" with
  | some m, some k => some { max_size := m, retain := k }
  | _, _ => none

end LogLimits

namespace EcosystemConfig

/-- The AppSpec the supervisor creates from the first application of the module
evaluated in process `process`. -/
def loadedSpec (process : Process) : Option AppSpec :=
  match (moduleExports process).apps.get? 0 with
  | some r => AppSpec.load r
  | none => none

/-- The log limits the supervisor reads from the first application of the
module evaluated in process `process`. -/
def loadedLimits (process : Process) : Option LogLimits :=
  match (moduleExports process).apps.get? 0 with
  | some r => LogLimits.load r
  | none => none

end EcosystemConfig

/-- Modelled from the spec: what the wait-for-exit operation of the launcher
yields, "(exit code, terminating signal)" (spec §4.1); the launcher is missing
from the sources. -/
structure ExitInfo where
  code : Int
  signal : Option Nat
  deriving DecidableEq, Repr

/-- Modelled from the spec: the reasons of `Stop` and of the terminal state
`Exited` (spec §4.3, §4.4, §5); the declaration is missing from the sources. -/
inductive StopReason where
  | clean_exit
  | autorestart_disabled
  | max_restarts_exceeded
  | memory_limit
  | launch_failed
  | shutdown
  deriving DecidableEq, Repr

/-- Modelled from the spec: the result of the restart policy,
`Restart(after: duration)` or `Stop(reason)` (spec §4.3); the declaration is
missing from the sources. -/
inductive Decision where
  | restart (after : Nat)
  | stop (reason : StopReason)
  deriving DecidableEq, Repr

/-- Modelled from the spec: the lifecycle phases of the supervisor core
(spec §4.4); the declaration is missing from the sources. -/
inductive Phase where
  | idle
  | starting
  | running
  | stopping
  | exited (reason : StopReason)
  | restarting
  deriving DecidableEq, Repr

/-- Modelled from the spec: the RunState of spec §3 as far as the restart policy
and the exit handling use it (restart counter, last exit, lifecycle phase); the
declaration is missing from the sources. -/
structure RunState where
  restart_counter : Nat
  last_exit : Option ExitInfo
  phase : Phase
  deriving DecidableEq, Repr

namespace RestartPolicy

/-- Modelled from the spec: the restart policy engine `decide(run_state,
exit_info)` with its four rules in order (spec §4.3); the engine is missing from
the sources.
1. exit code in stop_exit_codes: `Stop(clean_exit)`, regardless of autorestart;
2. else autorestart false: `Stop(autorestart_disabled)`;
3. else restart_counter ≥ max_restarts: `Stop(max_restarts_exceeded)`;
4. else `Restart(after = restart_delay)`. -/
def decide (spec : AppSpec) (rs : RunState) (exit_info : ExitInfo) : Decision :=
  if exit_info.code ∈ spec.stop_exit_codes then .stop .clean_exit
  else if spec.autorestart = false then .stop .autorestart_disabled
  else if rs.restart_counter ≥ spec.max_restarts then .stop .max_restarts_exceeded
  else .restart spec.restart_delay

end RestartPolicy

namespace SupervisorCore

/-- Modelled from the spec: the state before the first exit, the child running
and no restart counted (spec §3, §4.4); missing from the sources. -/
def initial : RunState :=
  { restart_counter := 0, last_exit := none, phase := .running }

/-- Modelled from the spec: handling of an exit of the child (spec §4.4, §4.3
rule 4); the supervisor core is missing from the sources.  The core records the
exit and queries the policy: on `Restart` it moves to `Restarting` and the
restart counter increments, on `Stop(reason)` it moves to the terminal
`Exited(reason)`. -/
def onExit (spec : AppSpec) (rs : RunState) (exit_info : ExitInfo) : RunState :=
  match RestartPolicy.decide spec rs exit_info with
  | .restart _ =>
    { restart_counter := rs.restart_counter + 1, last_exit := some exit_info,
      phase := .restarting }
  | .stop reason =>
    { restart_counter := rs.restart_counter, last_exit := some exit_info,
      phase := .exited reason }

/-- Modelled from the spec: the delayed re-entry from `Restarting` to `Starting`
followed by a successful spawn, which leads to `Running` (spec §4.4); missing
from the sources.  Every other phase is left as it is. -/
def respawn (rs : RunState) : RunState :=
  match rs.phase with
  | .restarting => { rs with phase := .running }
  | _ => rs

/-- Modelled from the spec: one exit observed by the supervisor (spec §4.4);
missing from the sources.  An exit is handled from `Running` or `Stopping`, and
after a `Restart` the child is spawned again; in every other phase, the terminal
ones included, there is no child and nothing happens. -/
def superviseExit (spec : AppSpec) (rs : RunState) (exit_info : ExitInfo) : RunState :=
  match rs.phase with
  | .running => respawn (onExit spec rs exit_info)
  | .stopping => respawn (onExit spec rs exit_info)
  | _ => rs

/-- Modelled from the spec: a sequence of exits of the child, observed one after
the other (spec §4.4, §8); missing from the sources. -/
def superviseExits (spec : AppSpec) (rs : RunState) (exits : List ExitInfo) : RunState :=
  exits.foldl (superviseExit spec) rs

end SupervisorCore

namespace ProcessLauncher

/-- Assignment `m[k] = v` on an environment kept as a list of entries: the entry
of `k` is replaced where it stands, or added at the end when there is none. -/
def setVar (m : List (String × String)) (k v : String) : List (String × String) :=
  match m with
  | [] => [(k, v)]
  | (k1, v1) :: rest =>
    if k1 = k then (k, v) :: rest else (k1, v1) :: setVar rest k v

/-- Modelled from the spec: the merged environment of the child, "explicit env
entries override inherited ones" (spec §4.1); the launcher is missing from the
sources.  Starting from the inherited environment, every explicit entry is
assigned in order. -/
def mergeEnv (inherited explicit : List (String × String)) : List (String × String) :=
  explicit.foldl (fun m kv => setVar m kv.1 kv.2) inherited

/-- Value of variable `k` in an environment. -/
def getVar (m : List (String × String)) (k : String) : Option String :=
  m.lookup k

end ProcessLauncher

/-- Modelled from the spec: the LogSink of spec §3 (current file size, rotated
files, rotation count); the declaration is missing from the sources.  `rotated`
holds the sizes of the rotated files, the file with numeric suffix 1 first. -/
structure LogSink where
  size : Nat
  rotated : List Nat
  rotations : Nat
  deriving DecidableEq, Repr

namespace LogWriter

/-- Modelled from the spec: the sink of a stream before its first write, an empty
active file and no rotated file (spec §3); missing from the sources. -/
def fresh : LogSink :=
  { size := 0, rotated := [], rotations := 0 }

/-- Modelled from the spec: rotation (spec §4.2); the log writer is missing from
the sources.  The current file is closed and renamed with a numeric suffix, the
suffixes of the rotated files shift by one, the oldest beyond `retain` is
deleted, and a fresh file is opened. -/
def rotate (limits : LogLimits) (sink : LogSink) : LogSink :=
  { size := 0,
    rotated := (sink.size :: sink.rotated).take limits.retain,
    rotations := sink.rotations + 1 }

/-- Modelled from the spec: `write(stream_id, bytes)` on the sink of one stream,
with `bytes` given by its length (spec §4.2); the log writer is missing from the
sources.  Before the write the accumulated size is checked and, if the write
would exceed max_size, the sink rotates; then the bytes are appended to the
active file. -/
def write (limits : LogLimits) (sink : LogSink) (bytes : Nat) : LogSink :=
  let active := if sink.size + bytes > limits.max_size then rotate limits sink else sink
  { active with size := active.size + bytes }

/-- Modelled from the spec: a sequence of writes to one sink (spec §4.2, §8);
missing from the sources. -/
def writeAll (limits : LogLimits) (sink : LogSink) (writes : List Nat) : LogSink :=
  writes.foldl (write limits) sink

end LogWriter

/-! The exported record. -/

namespace EcosystemConfig

/-- C1 (as stated, refuted): in a process with working directory `/srv/app`,
`merge_logs` is a key of `apps[0]` and is not one of the recognized options of
spec §6. -/
theorem merge_logs_key_not_recognized :
    "merge_logs" ∈ appKeys (moduleExports deployed) 0
      ∧ "merge_logs" ∉ recognizedOptions := by
  decide

/-- C1 (amended): every key of `apps[0]` is `merge_logs` or one of the
recognized options of spec §6, and `merge_logs` itself is a key of `apps[0]`
outside that set, in every process. -/
theorem app_keys_recognized_or_merge_logs (process : Process) :
    (∀ k ∈ appKeys (moduleExports process) 0, k = "merge_logs" ∨ k ∈ recognizedOptions)
      ∧ "merge_logs" ∈ appKeys (moduleExports process) 0
      ∧ "merge_logs" ∉ recognizedOptions := by
  have hkeys : appKeys (moduleExports process) 0 =
      [ "name", "script", "args", "cwd", "autorestart", "max_restarts", "watch",
        "max_memory_restart", "restart_delay", "stop_exit_codes", "time", "merge_logs",
        "log_date_format", "out_file", "error_file", "log_file", "max_size", "retain",
        "env" ] := rfl
  rw [hkeys]
  decide

/-- Witness of `app_keys_recognized_or_merge_logs` at the key `env`. -/
theorem app_keys_recognized_or_merge_logs_witness :
    "env" ∈ appKeys (moduleExports deployed) 0
      ∧ ("env" = "merge_logs" ∨ "env" ∈ recognizedOptions) :=
  ⟨by decide,
   (app_keys_recognized_or_merge_logs deployed).1
     "env" (by decide)⟩

/-- C2 (as stated, refuted): two processes with different working directories
get different exported values. -/
theorem exports_differ_across_processes :
    moduleExports deployed
      ≠ moduleExports checkout := by
  decide

/-- C2 (amended): the exported values of two processes are equal exactly when
the two processes have the same working directory; no other part of the process
state enters the exported value. -/
theorem exports_eq_iff_same_cwd (p q : Process) :
    moduleExports p = moduleExports q ↔ p.cwd = q.cwd := by
  constructor
  · intro h
    have h1 : appProp (moduleExports p) 0 "cwd" = appProp (moduleExports q) 0 "cwd" := by
      rw [h]
    have hp : appProp (moduleExports p) 0 "cwd" = some (.str p.cwd) := rfl
    have hq : appProp (moduleExports q) 0 "cwd" = some (.str q.cwd) := rfl
    rw [hp, hq] at h1
    injection h1 with h2
    injection h2
  · intro h
    unfold moduleExports
    rw [h]

/-- C3: in every process the exported `apps` is a list of length 1 whose one
element has name `food-order-api`, script `uv` and args `run main.py`. -/
theorem exports_single_app (process : Process) :
    (moduleExports process).apps.length = 1
      ∧ ∃ r, (moduleExports process).apps = [r]
          ∧ getProp r "name" = some (.str "food-order-api")
          ∧ getProp r "script" = some (.str "uv")
          ∧ getProp r "args" = some (.str "run main.py") :=
  ⟨rfl, _, rfl, rfl, rfl, rfl⟩

/-- C10: for any two processes the two application records have the same keys
and agree on every property other than `cwd`, and in each of them `cwd` is the
working directory of the process that evaluated the module. -/
theorem only_cwd_depends_on_process (p q : Process) :
    appKeys (moduleExports p) 0 = appKeys (moduleExports q) 0
      ∧ (∀ k, k ≠ "cwd" → appProp (moduleExports p) 0 k = appProp (moduleExports q) 0 k)
      ∧ appProp (moduleExports p) 0 "cwd" = some (.str p.cwd)
      ∧ appProp (moduleExports q) 0 "cwd" = some (.str q.cwd) := by
  refine ⟨rfl, ?_, rfl, rfl⟩
  intro k hk
  have hb : (k == "cwd") = false := by
    simpa using hk
  simp [appProp, getProp, moduleExports, List.lookup_cons, hb]

/-- Witness of `only_cwd_depends_on_process`: two processes that differ in every
part of their state get the same `name` and each its own `cwd`. -/
theorem only_cwd_depends_on_process_witness :
    appProp (moduleExports deployed) 0 "name"
        = appProp (moduleExports scratch) 0 "name"
      ∧ appProp (moduleExports scratch) 0 "cwd" = some (.str "/tmp") :=
  ⟨(only_cwd_depends_on_process deployed
      scratch).2.1
      "name" (by decide),
   (only_cwd_depends_on_process deployed
      scratch).2.2.2⟩

end EcosystemConfig

/-! Restart policy under the configuration. -/

namespace EcosystemConfig

/-- The AppSpec loaded from the module, field by field. -/
theorem loadedSpec_eq (process : Process) :
    loadedSpec process = some
      { name := "food-order-api", script := "uv", args := "run main.py",
        cwd := process.cwd, env := env, autorestart := true, max_restarts := 3,
        restart_delay := 3000, max_memory_restart := 1073741824,
        stop_exit_codes := [0] } :=
  rfl

/-- The log limits loaded from the module. -/
theorem loadedLimits_eq (process : Process) :
    loadedLimits process = some { max_size := 52428800, retain := 10 } :=
  rfl

end EcosystemConfig

namespace SupervisorCore

/-- In a terminal phase no exit changes the state. -/
theorem superviseExits_exited (spec : AppSpec) (n : Nat) (l : Option ExitInfo)
    (reason : StopReason) (exits : List ExitInfo) :
    superviseExits spec { restart_counter := n, last_exit := l, phase := .exited reason } exits
      = { restart_counter := n, last_exit := l, phase := .exited reason } := by
  induction exits with
  | nil => rfl
  | cons e rest ih =>
    simpa [superviseExits, List.foldl_cons, superviseExit] using ih

/-- One exit with a code outside stop_exit_codes, autorestart on and budget left:
the child runs again and the counter has moved by one. -/
theorem superviseExit_restart (spec : AppSpec) (n : Nat) (l : Option ExitInfo) (e : ExitInfo)
    (hauto : spec.autorestart = true) (hcode : e.code ∉ spec.stop_exit_codes)
    (hn : n < spec.max_restarts) :
    superviseExit spec { restart_counter := n, last_exit := l, phase := .running } e
      = { restart_counter := n + 1, last_exit := some e, phase := .running } := by
  have hge : ¬ n ≥ spec.max_restarts := by omega
  simp [superviseExit, onExit, RestartPolicy.decide, hauto, hcode, hge, respawn]

/-- One exit with a code outside stop_exit_codes, autorestart on and the budget
used up: the supervisor stops with `max_restarts_exceeded`. -/
theorem superviseExit_exceeded (spec : AppSpec) (n : Nat) (l : Option ExitInfo) (e : ExitInfo)
    (hauto : spec.autorestart = true) (hcode : e.code ∉ spec.stop_exit_codes)
    (hn : spec.max_restarts ≤ n) :
    superviseExit spec { restart_counter := n, last_exit := l, phase := .running } e
      = { restart_counter := n, last_exit := some e,
          phase := .exited .max_restarts_exceeded } := by
  simp [superviseExit, onExit, RestartPolicy.decide, hauto, hcode, hn, respawn]

/-- The counter and the phase after any sequence of exits with codes outside
stop_exit_codes, for any AppSpec with autorestart on. -/
theorem superviseExits_running (spec : AppSpec) (hauto : spec.autorestart = true)
    (exits : List ExitInfo) :
    ∀ (n : Nat) (l : Option ExitInfo), n ≤ spec.max_restarts →
      (∀ e ∈ exits, e.code ∉ spec.stop_exit_codes) →
      (superviseExits spec { restart_counter := n, last_exit := l, phase := .running }
          exits).restart_counter = min (n + exits.length) spec.max_restarts
      ∧ (superviseExits spec { restart_counter := n, last_exit := l, phase := .running }
          exits).phase
          = if spec.max_restarts < n + exits.length then .exited .max_restarts_exceeded
            else .running := by
  induction exits with
  | nil =>
    intro n l hn _
    have h1 : ¬ spec.max_restarts < n := by omega
    simp [superviseExits, h1, hn]
  | cons e rest ih =>
    intro n l hn hcodes
    have hcode : e.code ∉ spec.stop_exit_codes := hcodes e (List.mem_cons_self _ _)
    have hrest : ∀ x ∈ rest, x.code ∉ spec.stop_exit_codes :=
      fun x hx => hcodes x (List.mem_cons_of_mem _ hx)
    have hstep : superviseExits spec
        { restart_counter := n, last_exit := l, phase := .running } (e :: rest)
        = superviseExits spec
            (superviseExit spec { restart_counter := n, last_exit := l, phase := .running } e)
            rest := rfl
    rw [hstep]
    by_cases hlt : n < spec.max_restarts
    · rw [superviseExit_restart spec n l e hauto hcode hlt]
      have h := ih (n + 1) (some e) hlt hrest
      have hlen : n + (e :: rest).length = n + 1 + rest.length := by
        simp [List.length_cons]; omega
      rw [hlen]
      exact h
    · have hle : spec.max_restarts ≤ n := by omega
      rw [superviseExit_exceeded spec n l e hauto hcode hle, superviseExits_exited]
      have h1 : spec.max_restarts < n + (rest.length + 1) := by omega
      have h2 : min (n + (rest.length + 1)) spec.max_restarts = n := by omega
      rw [List.length_cons, if_pos h1, h2]
      exact ⟨rfl, rfl⟩

end SupervisorCore

namespace EcosystemConfig

/-- C4: the AppSpec loaded from the module has stop_exit_codes exactly {0} and
max_restarts 3; with autorestart set to either value, for every run state (so
for every restart_counter) and every terminating signal, `decide` on an exit
with code 0 is `Stop(clean_exit)`, and the exit handling leaves restart_counter
unchanged and reaches `Exited(clean_exit)`; a first exit with code 0 ends in
`Exited(clean_exit)` with restart_counter 0. -/
theorem clean_exit_stops (process : Process) :
    ∃ spec, loadedSpec process = some spec
      ∧ (∀ c, c ∈ spec.stop_exit_codes ↔ c = 0)
      ∧ spec.max_restarts = 3
      ∧ (∀ (a : Bool) (rs : RunState) (sig : Option Nat),
          RestartPolicy.decide { spec with autorestart := a } rs { code := 0, signal := sig }
              = .stop .clean_exit
            ∧ (SupervisorCore.onExit { spec with autorestart := a } rs
                { code := 0, signal := sig }).restart_counter = rs.restart_counter
            ∧ (SupervisorCore.onExit { spec with autorestart := a } rs
                { code := 0, signal := sig }).phase = .exited .clean_exit)
      ∧ (∀ sig : Option Nat,
          SupervisorCore.superviseExits spec SupervisorCore.initial [{ code := 0, signal := sig }]
            = { restart_counter := 0, last_exit := some { code := 0, signal := sig },
                phase := .exited .clean_exit }) := by
  refine ⟨_, loadedSpec_eq process, ?_, rfl, ?_, ?_⟩
  · intro c
    simp
  · intro a rs sig
    simp [RestartPolicy.decide, SupervisorCore.onExit]
  · intro sig
    simp [SupervisorCore.superviseExits, SupervisorCore.superviseExit, SupervisorCore.initial,
      SupervisorCore.onExit, RestartPolicy.decide, SupervisorCore.respawn]

/-- C5: the AppSpec loaded from the module has autorestart on, max_restarts 3
and stop_exit_codes [0]; for every sequence of exits with non-zero codes observed
from the initial state, restart_counter afterwards is min(N, 3) for N the number
of exits, it is at most 3, the phase is `Exited(max_restarts_exceeded)` exactly
when N exceeds 3, and with N at most 3 the child is running. -/
theorem restart_budget (process : Process) :
    ∃ spec, loadedSpec process = some spec
      ∧ spec.autorestart = true ∧ spec.max_restarts = 3 ∧ spec.stop_exit_codes = [0]
      ∧ ∀ exits : List ExitInfo, (∀ e ∈ exits, e.code ≠ 0) →
          (SupervisorCore.superviseExits spec SupervisorCore.initial exits).restart_counter
              = min exits.length 3
            ∧ (SupervisorCore.superviseExits spec SupervisorCore.initial exits).restart_counter ≤ 3
            ∧ ((SupervisorCore.superviseExits spec SupervisorCore.initial exits).phase
                  = .exited .max_restarts_exceeded ↔ 3 < exits.length)
            ∧ (exits.length ≤ 3 →
                (SupervisorCore.superviseExits spec SupervisorCore.initial exits).phase
                  = .running) := by
  refine ⟨_, loadedSpec_eq process, rfl, rfl, rfl, ?_⟩
  intro exits hcodes
  have h := SupervisorCore.superviseExits_running
    { name := "food-order-api", script := "uv", args := "run main.py",
      cwd := process.cwd, env := env, autorestart := true, max_restarts := 3,
      restart_delay := 3000, max_memory_restart := 1073741824,
      stop_exit_codes := [0] } rfl exits 0 none (Nat.zero_le _)
    (fun e he => by simpa using hcodes e he)
  simp only [Nat.zero_add] at h
  obtain ⟨hc, hp⟩ := h
  refine ⟨hc, ?_, ?_, ?_⟩
  · show (SupervisorCore.superviseExits _ _ exits).restart_counter ≤ 3
    rw [show SupervisorCore.initial
      = { restart_counter := 0, last_exit := none, phase := .running } from rfl, hc]
    exact Nat.min_le_right _ _
  · show (SupervisorCore.superviseExits _ _ exits).phase = _ ↔ _
    rw [show SupervisorCore.initial
      = { restart_counter := 0, last_exit := none, phase := .running } from rfl, hp]
    by_cases hlt : 3 < exits.length
    · simp [hlt]
    · simp [hlt]
  · intro hle
    have hlt : ¬ 3 < exits.length := by omega
    show (SupervisorCore.superviseExits _ _ exits).phase = _
    rw [show SupervisorCore.initial
      = { restart_counter := 0, last_exit := none, phase := .running } from rfl, hp]
    simp [hlt]

/-- Witness of `restart_budget`: four exits with code 1 in the deployed process
leave the counter at 3 and end in `Exited(max_restarts_exceeded)`. -/
theorem restart_budget_witness :
    ∃ spec, loadedSpec deployed = some spec
      ∧ (SupervisorCore.superviseExits spec SupervisorCore.initial
          (List.replicate 4 { code := 1, signal := none })).restart_counter = 3
      ∧ (SupervisorCore.superviseExits spec SupervisorCore.initial
          (List.replicate 4 { code := 1, signal := none })).phase
            = .exited .max_restarts_exceeded :=
  match restart_budget deployed with
  | ⟨spec, hload, _, _, _, h⟩ =>
    have hw := h (List.replicate 4 { code := 1, signal := none }) (by decide)
    ⟨spec, hload, hw.1, hw.2.2.1.mpr (by decide)⟩

/-- C6: with the AppSpec loaded from the module, for every exit with a non-zero
code and every run state with restart_counter below 3, `decide` is
`Restart(after = 3000)` and the exit handling moves restart_counter to its
successor; and `decide` is `Stop(autorestart_disabled)` for no exit and no run
state. -/
theorem nonzero_exit_restarts (process : Process) :
    ∃ spec, loadedSpec process = some spec
      ∧ spec.autorestart = true
      ∧ (∀ (rs : RunState) (e : ExitInfo), e.code ≠ 0 → rs.restart_counter < 3 →
          RestartPolicy.decide spec rs e = .restart 3000
            ∧ (SupervisorCore.onExit spec rs e).restart_counter = rs.restart_counter + 1)
      ∧ (∀ (rs : RunState) (e : ExitInfo),
          RestartPolicy.decide spec rs e ≠ .stop .autorestart_disabled) := by
  refine ⟨_, loadedSpec_eq process, rfl, ?_, ?_⟩
  · intro rs e hcode hn
    have hge : ¬ 3 ≤ rs.restart_counter := by omega
    simp [RestartPolicy.decide, SupervisorCore.onExit, hcode, hge]
  · intro rs e
    by_cases h1 : e.code = 0 <;> by_cases h3 : 3 ≤ rs.restart_counter <;>
      simp [RestartPolicy.decide, h1, h3]

/-- Witness of `nonzero_exit_restarts`: exit code 1 at restart_counter 2 in the
deployed process. -/
theorem nonzero_exit_restarts_witness :
    ∃ spec, loadedSpec deployed = some spec
      ∧ RestartPolicy.decide spec { restart_counter := 2, last_exit := none, phase := .running }
          { code := 1, signal := none } = .restart 3000
      ∧ (SupervisorCore.onExit spec { restart_counter := 2, last_exit := none, phase := .running }
          { code := 1, signal := none }).restart_counter = 3 :=
  match nonzero_exit_restarts deployed with
  | ⟨spec, hload, _, h, _⟩ =>
    ⟨spec, hload,
      h { restart_counter := 2, last_exit := none, phase := .running }
        { code := 1, signal := none } (by decide) (by decide)⟩

end EcosystemConfig

/-! Environment of the child. -/

namespace ProcessLauncher

/-- After an assignment the variable has the assigned value. -/
theorem getVar_setVar_same (m : List (String × String)) (k v : String) :
    getVar (setVar m k v) k = some v := by
  induction m with
  | nil => simp [setVar, getVar, List.lookup]
  | cons kv rest ih =>
    obtain ⟨k1, v1⟩ := kv
    by_cases h : k1 = k
    · simp [setVar, getVar, List.lookup, h]
    · have hb : (k == k1) = false := by
        simpa using fun h2 : k = k1 => h h2.symm
      simpa [setVar, getVar, List.lookup, h, hb] using ih

/-- An assignment leaves every other variable as it was. -/
theorem getVar_setVar_other (m : List (String × String)) (k v k2 : String) (hne : k2 ≠ k) :
    getVar (setVar m k v) k2 = getVar m k2 := by
  induction m with
  | nil =>
    have hb : (k2 == k) = false := by simpa using hne
    simp [setVar, getVar, List.lookup, hb]
  | cons kv rest ih =>
    obtain ⟨k1, v1⟩ := kv
    by_cases h : k1 = k
    · have hb : (k2 == k) = false := by simpa using hne
      have hb1 : (k2 == k1) = false := by rw [h]; exact hb
      simp [setVar, getVar, List.lookup, h, hb]
    · by_cases h2 : k2 = k1
      · simp [setVar, getVar, List.lookup, h, h2]
      · have hb1 : (k2 == k1) = false := by simpa using h2
        simpa [setVar, getVar, List.lookup, h, hb1] using ih

/-- A variable that no explicit entry names keeps its inherited value. -/
theorem getVar_mergeEnv_frame (explicit : List (String × String)) :
    ∀ (inherited : List (String × String)) (k : String), k ∉ explicit.map Prod.fst →
      getVar (mergeEnv inherited explicit) k = getVar inherited k := by
  induction explicit with
  | nil =>
    intro inherited k _
    rfl
  | cons kv rest ih =>
    intro inherited k hk
    have hk1 : k ≠ kv.1 := fun h => hk (by simp [h])
    have hk2 : k ∉ rest.map Prod.fst := fun h => hk (by simp [List.mem_map] at h ⊢; exact Or.inr h)
    have hstep : mergeEnv inherited (kv :: rest) = mergeEnv (setVar inherited kv.1 kv.2) rest := rfl
    rw [hstep, ih _ k hk2, getVar_setVar_other _ _ _ _ hk1]

/-- With unique explicit keys every explicit entry is the value of its key in the
merged environment. -/
theorem getVar_mergeEnv_explicit (explicit : List (String × String)) :
    ∀ (inherited : List (String × String)), (explicit.map Prod.fst).Nodup →
      ∀ kv ∈ explicit, getVar (mergeEnv inherited explicit) kv.1 = some kv.2 := by
  induction explicit with
  | nil =>
    intro _ _ kv hkv
    cases hkv
  | cons e rest ih =>
    intro inherited hnd kv hkv
    have hstep : mergeEnv inherited (e :: rest) = mergeEnv (setVar inherited e.1 e.2) rest := rfl
    rw [List.map_cons, List.nodup_cons] at hnd
    rw [hstep]
    rcases List.mem_cons.mp hkv with h | h
    · subst h
      rw [getVar_mergeEnv_frame rest _ _ hnd.1, getVar_setVar_same]
    · exact ih _ hnd.2 kv h

end ProcessLauncher

namespace EcosystemConfig

/-- C7: the environment of the AppSpec loaded from the module is the `env` object
of the source, its keys are the six names NODE_ENV, PYTHONUNBUFFERED,
PYTHONIOENCODING, NO_COLOR, TERM, FORCE_COLOR, pairwise distinct; for every
inherited environment the merged environment gives each of the six keys the
value of the config and gives every other key what the inherited environment
gives it. -/
theorem child_env_overrides (process : Process) :
    ∃ spec, loadedSpec process = some spec
      ∧ getProp [("env", JsVal.strObj spec.env)] "env" = appProp (moduleExports process) 0 "env"
      ∧ spec.env.map Prod.fst
          = ["NODE_ENV", "PYTHONUNBUFFERED", "PYTHONIOENCODING", "NO_COLOR", "TERM", "FORCE_COLOR"]
      ∧ (spec.env.map Prod.fst).Nodup
      ∧ ∀ inherited : List (String × String),
          (∀ kv ∈ spec.env,
              ProcessLauncher.getVar (ProcessLauncher.mergeEnv inherited spec.env) kv.1
                = some kv.2)
            ∧ (∀ k, k ∉ spec.env.map Prod.fst →
                ProcessLauncher.getVar (ProcessLauncher.mergeEnv inherited spec.env) k
                  = ProcessLauncher.getVar inherited k) := by
  have hnd : (env.map Prod.fst).Nodup := by decide
  refine ⟨_, loadedSpec_eq process, rfl, rfl, hnd, ?_⟩
  intro inherited
  exact ⟨ProcessLauncher.getVar_mergeEnv_explicit env inherited hnd,
    fun k hk => ProcessLauncher.getVar_mergeEnv_frame env inherited k hk⟩

/-- Witness of `child_env_overrides`: over an inherited environment that sets
TERM and HOME, the child gets TERM from the config and HOME as inherited. -/
theorem child_env_overrides_witness :
    ∃ spec, loadedSpec deployed = some spec
      ∧ ProcessLauncher.getVar
          (ProcessLauncher.mergeEnv [("TERM", "xterm"), ("HOME", "/root")] spec.env) "TERM"
            = some "dumb"
      ∧ ProcessLauncher.getVar
          (ProcessLauncher.mergeEnv [("TERM", "xterm"), ("HOME", "/root")] spec.env) "HOME"
            = some "/root" :=
  match child_env_overrides deployed with
  | ⟨spec, hload, _, hkeys, _, h⟩ =>
    have hin : (("TERM", "dumb") : String × String) ∈ spec.env := by
      have hs := Option.some.inj (hload.symm.trans (loadedSpec_eq deployed))
      rw [hs]
      decide
    ⟨spec, hload,
      (h [("TERM", "xterm"), ("HOME", "/root")]).1 ("TERM", "dumb") hin,
      (h [("TERM", "xterm"), ("HOME", "/root")]).2 "HOME" (by rw [hkeys]; decide)⟩

end EcosystemConfig

/-! Log rotation under the configuration.

The specification does not say what the writer does with a single write larger
than max_size.  The model appends it whole after rotating, which is the reading
of §4.2 word for word; the lemmas below hold for that reading. -/

namespace LogWriter

/-- A write keeps the number of rotated files within the retention limit. -/
theorem write_rotated_length (limits : LogLimits) (sink : LogSink) (bytes : Nat)
    (h : sink.rotated.length ≤ limits.retain) :
    (write limits sink bytes).rotated.length ≤ limits.retain := by
  unfold write
  by_cases hgt : sink.size + bytes > limits.max_size
  · simp only [if_pos hgt, rotate, List.length_take]
    exact Nat.min_le_left _ _
  · simpa only [if_neg hgt] using h

/-- Any sequence of writes keeps the number of rotated files within the retention
limit. -/
theorem writeAll_rotated_length (limits : LogLimits) (writes : List Nat) :
    ∀ sink : LogSink, sink.rotated.length ≤ limits.retain →
      (writeAll limits sink writes).rotated.length ≤ limits.retain := by
  induction writes with
  | nil =>
    intro sink h
    exact h
  | cons w rest ih =>
    intro sink h
    exact ih (write limits sink w) (write_rotated_length limits sink w h)

/-- A write of at most max_size bytes keeps the active file and every rotated file
within max_size. -/
theorem write_sizes (limits : LogLimits) (sink : LogSink) (bytes : Nat)
    (hb : bytes ≤ limits.max_size) (hs : sink.size ≤ limits.max_size)
    (hr : ∀ f ∈ sink.rotated, f ≤ limits.max_size) :
    (write limits sink bytes).size ≤ limits.max_size
      ∧ ∀ f ∈ (write limits sink bytes).rotated, f ≤ limits.max_size := by
  unfold write
  by_cases hgt : sink.size + bytes > limits.max_size
  · simp only [if_pos hgt, rotate, Nat.zero_add]
    refine ⟨hb, ?_⟩
    intro f hf
    rcases List.mem_cons.mp (List.mem_of_mem_take hf) with h | h
    · rw [h]
      exact hs
    · exact hr f h
  · simp only [if_neg hgt]
    exact ⟨by omega, hr⟩

/-- Any sequence of writes of at most max_size bytes each keeps the active file
and every rotated file within max_size. -/
theorem writeAll_sizes (limits : LogLimits) (writes : List Nat) :
    ∀ sink : LogSink, (∀ w ∈ writes, w ≤ limits.max_size) → sink.size ≤ limits.max_size →
      (∀ f ∈ sink.rotated, f ≤ limits.max_size) →
      (writeAll limits sink writes).size ≤ limits.max_size
        ∧ ∀ f ∈ (writeAll limits sink writes).rotated, f ≤ limits.max_size := by
  induction writes with
  | nil =>
    intro sink _ hs hr
    exact ⟨hs, hr⟩
  | cons w rest ih =>
    intro sink hw hs hr
    have h1 := write_sizes limits sink w (hw w (List.mem_cons_self _ _)) hs hr
    exact ih (write limits sink w) (fun x hx => hw x (List.mem_cons_of_mem _ hx)) h1.1 h1.2

/-- Writes that fit into the active file cause no rotation. -/
theorem writeAll_fits (limits : LogLimits) (writes : List Nat) :
    ∀ sink : LogSink, sink.size + writes.sum ≤ limits.max_size →
      (writeAll limits sink writes).rotations = sink.rotations
        ∧ (writeAll limits sink writes).size = sink.size + writes.sum := by
  induction writes with
  | nil =>
    intro sink _
    exact ⟨rfl, by simp [writeAll]⟩
  | cons w rest ih =>
    intro sink h
    rw [List.sum_cons] at h
    have hle : ¬ sink.size + w > limits.max_size := by omega
    have hw : write limits sink w = { sink with size := sink.size + w } := by
      simp [write, hle]
    have hstep : writeAll limits sink (w :: rest) = writeAll limits (write limits sink w) rest :=
      rfl
    have h2 := ih (write limits sink w) (by rw [hw]; simp only; omega)
    rw [hstep, h2.1, h2.2, hw, List.sum_cons]
    exact ⟨rfl, by simp only; omega⟩

/-- Writes of at most `c` bytes each that overflow an active file within
max_size, and whose total stays within twice max_size less `c`, cause exactly
one rotation. -/
theorem writeAll_one_rotation (limits : LogLimits) (c : Nat) (writes : List Nat) :
    ∀ sink : LogSink, sink.size ≤ limits.max_size → (∀ w ∈ writes, w ≤ c) →
      limits.max_size < sink.size + writes.sum →
      sink.size + writes.sum + c ≤ 2 * limits.max_size + 1 →
      (writeAll limits sink writes).rotations = sink.rotations + 1 := by
  induction writes with
  | nil =>
    intro sink hs _ hgt hle
    simp only [List.sum_nil, Nat.add_zero] at hgt hle
    omega
  | cons w rest ih =>
    intro sink hs hc hgt hle
    rw [List.sum_cons] at hgt hle
    have hwc : w ≤ c := hc w (List.mem_cons_self _ _)
    have hstep : writeAll limits sink (w :: rest) = writeAll limits (write limits sink w) rest :=
      rfl
    rw [hstep]
    by_cases hov : sink.size + w > limits.max_size
    · have hw : write limits sink w
          = { size := w, rotated := (sink.size :: sink.rotated).take limits.retain,
              rotations := sink.rotations + 1 } := by
        simp [write, hov, rotate]
      have h2 := writeAll_fits limits rest (write limits sink w) (by rw [hw]; simp only; omega)
      rw [h2.1, hw]
    · have hw : write limits sink w = { sink with size := sink.size + w } := by
        simp [write, hov]
      have h2 := ih (write limits sink w) (by rw [hw]; simp only; omega)
        (fun x hx => hc x (List.mem_cons_of_mem _ hx))
        (by rw [hw]; simp only; omega) (by rw [hw]; simp only; omega)
      rw [h2, hw]

end LogWriter

namespace EcosystemConfig

/-- On the limits loaded from the module (max_size 50 MB, retain 10), the
procedure as modelled appends a write whole after rotating: one write of 51 MB to
a fresh sink is rotated once and leaves an active file of 51 MB, and 51 MB
written as 524288, 52000000 and 953088 bytes are rotated twice. -/
theorem writeAll_51MB_evaluations :
    loadedLimits deployed = some { max_size := 52428800, retain := 10 }
      ∧ LogWriter.writeAll { max_size := 52428800, retain := 10 } LogWriter.fresh [53477376]
          = { size := 53477376, rotated := [0], rotations := 1 }
      ∧ [524288, 52000000, 953088].sum = 53477376
      ∧ (LogWriter.writeAll { max_size := 52428800, retain := 10 } LogWriter.fresh
          [524288, 52000000, 953088]).rotations = 2 := by
  refine ⟨rfl, ?_, ?_, ?_⟩ <;> decide

/-- What the procedure as modelled guarantees on the limits loaded from the
module: at most 10 rotated files after every sequence of writes; the active file
and every rotated file within max_size after every sequence of writes of at most
max_size bytes each; exactly one rotation for every sequence of writes of at most
49 MB each that totals 51 MB. -/
theorem loaded_limits_rotation_facts (process : Process) :
    ∃ limits, loadedLimits process = some limits
      ∧ limits.max_size = 50 * (1024 * 1024) ∧ limits.retain = 10
      ∧ (∀ writes : List Nat,
          (LogWriter.writeAll limits LogWriter.fresh writes).rotated.length ≤ 10)
      ∧ (∀ writes : List Nat, (∀ w ∈ writes, w ≤ limits.max_size) →
          (LogWriter.writeAll limits LogWriter.fresh writes).size ≤ limits.max_size
            ∧ ∀ f ∈ (LogWriter.writeAll limits LogWriter.fresh writes).rotated,
                f ≤ limits.max_size)
      ∧ (∀ writes : List Nat, (∀ w ∈ writes, w ≤ 49 * (1024 * 1024)) →
          writes.sum = 51 * (1024 * 1024) →
          (LogWriter.writeAll limits LogWriter.fresh writes).rotations = 1) := by
  refine ⟨_, loadedLimits_eq process, rfl, rfl, ?_, ?_, ?_⟩
  · intro writes
    exact LogWriter.writeAll_rotated_length { max_size := 52428800, retain := 10 } writes
      LogWriter.fresh (Nat.zero_le _)
  · intro writes hw
    exact LogWriter.writeAll_sizes { max_size := 52428800, retain := 10 } writes
      LogWriter.fresh hw (Nat.zero_le _) (fun f hf => by cases hf)
  · intro writes hw hsum
    have h := LogWriter.writeAll_one_rotation { max_size := 52428800, retain := 10 }
      (49 * (1024 * 1024)) writes LogWriter.fresh (Nat.zero_le _) hw
      (by rw [hsum]; decide) (by rw [hsum]; decide)
    simpa [LogWriter.fresh] using h

/-- C9: in every process `max_memory_restart` is the string `1G` and `max_size`
the string `50M`; each reads as a positive decimal integer followed by one unit
letter, `50M` denotes 50 times the megabyte unit and fewer bytes than `1G`, one
gigabyte unit; `max_restarts`, `retain` and `restart_delay` are the integers 3,
10 and 3000, each read as a non-negative count. -/
theorem size_and_count_options (process : Process) :
    ∃ r, (moduleExports process).apps = [r]
      ∧ getStr r "max_memory_restart" = some "1G"
      ∧ getStr r "max_size" = some "50M"
      ∧ SizeOption.splitSize "1G" = some (1, 'G')
      ∧ SizeOption.splitSize "50M" = some (50, 'M')
      ∧ "1G".length = 2 ∧ "50M".length = 3
      ∧ SizeOption.unitBytes 'M' = some (1024 * 1024)
      ∧ SizeOption.unitBytes 'G' = some (1024 * 1024 * 1024)
      ∧ SizeOption.sizeBytes "50M" = some (50 * (1024 * 1024))
      ∧ SizeOption.sizeBytes "1G" = some (1 * (1024 * 1024 * 1024))
      ∧ 50 * (1024 * 1024) < 1 * (1024 * 1024 * 1024)
      ∧ getNum r "max_restarts" = some 3 ∧ getCount r "max_restarts" = some 3
      ∧ getNum r "retain" = some 10 ∧ getCount r "retain" = some 10
      ∧ getNum r "restart_delay" = some 3000 ∧ getCount r "restart_delay" = some 3000 := by
  refine ⟨_, rfl, rfl, rfl, ?_, ?_, ?_, ?_, ?_, ?_, ?_, ?_, ?_, rfl, rfl, rfl, rfl, rfl, rfl⟩ <;>
    decide

end EcosystemConfig
